import Mathlib

/-!
Verification of the lighthouse-monitor scoring pipeline.

The Python source (src/lighthouse_monitor.py) is embedded shallowly:
Python dicts with string keys become association lists in insertion
order (first match wins on lookup, as dict keys are unique), scores are
integers, and fallible operations return Option or Except. String
rendering is modelled by the structured data each renderer interpolates
into its template; the surrounding constant markup carries no data.
-/

/-- A significant score change, as built by compare_scores (source lines
130 to 136). -/
structure Change where
  category : String
  previous : Int
  current : Int
  diff : Int
  direction : String
deriving DecidableEq, Repr

/-- Dict lookup, dict.get(key): first matching key wins (dict keys are
unique, so the convention is irrelevant on real records). -/
def getScore (record : List (String × Int)) (c : String) : Option Int :=
  match record with
  | [] => none
  | entry :: rest => if entry.1 = c then some entry.2 else getScore rest c

/-- compare_scores (source lines 121 to 138): iterate the current
record, skip categories with no previous score, and emit a Change when
the absolute difference reaches the threshold. -/
def compare_scores (current previous : List (String × Int)) (threshold : Int) :
    List Change :=
  current.filterMap (fun entry =>
    match getScore previous entry.1 with
    | none => none
    | some p =>
      if threshold ≤ abs (entry.2 - p) then
        some ⟨entry.1, p, entry.2, entry.2 - p,
          if 0 < entry.2 - p then ("improved") else ("declined")⟩
      else none)

/-- With unique keys, association-list lookup finds the stored value. -/
theorem getScore_eq_of_mem_nodup (l : List (String × Int))
    (hnd : (l.map Prod.fst).Nodup) (c : String) (v : Int)
    (hmem : (c, v) ∈ l) : getScore l c = some v := by
  induction l with
  | nil => simp at hmem
  | cons hd tl ih =>
    rw [List.map_cons, List.nodup_cons] at hnd
    rw [List.mem_cons] at hmem
    rw [getScore]
    rcases hmem with heq | htl
    · subst heq
      simp
    · have hc : hd.1 ≠ c := by
        intro h
        exact hnd.1 (h ▸ List.mem_map.mpr ⟨(c, v), htl, rfl⟩)
      rw [if_neg hc]
      exact ih hnd.2 htl

/-- Claim C1: compare_scores emits a Change for category c iff c occurs
in the current record, c has a previous score, and the absolute
difference reaches the (inclusive) threshold; categories absent from the
previous record are silently skipped. -/
theorem compare_scores_emits_iff (current previous : List (String × Int))
    (t : Int) (ht : 0 ≤ t) (c : String) :
    (∃ ch ∈ compare_scores current previous t, ch.category = c) ↔
      (∃ cur, (c, cur) ∈ current ∧
        ∃ p, getScore previous c = some p ∧ t ≤ abs (cur - p)) := by
  constructor
  · rintro ⟨ch, hch, hcat⟩
    rw [compare_scores, List.mem_filterMap] at hch
    obtain ⟨entry, hmem, hf⟩ := hch
    cases hgs : getScore previous entry.1 with
    | none => rw [hgs] at hf; simp at hf
    | some p =>
      rw [hgs] at hf
      dsimp only at hf
      by_cases hcond : t ≤ abs (entry.2 - p)
      · rw [if_pos hcond] at hf
        injection hf with hf
        have hcat1 : entry.1 = c := by rw [← hcat, ← hf]
        refine ⟨entry.2, ?_, p, ?_, hcond⟩
        · rw [← hcat1, Prod.mk.eta]; exact hmem
        · rw [← hcat1]; exact hgs
      · rw [if_neg hcond] at hf
        simp at hf
  · rintro ⟨cur, hmem, p, hp, hcond⟩
    refine ⟨⟨c, p, cur, cur - p,
      if 0 < cur - p then ("improved") else ("declined")⟩, ?_, rfl⟩
    rw [compare_scores, List.mem_filterMap]
    refine ⟨(c, cur), hmem, ?_⟩
    simp only [hp]
    rw [if_pos hcond]

/-- Witness for C1 at the spec scenario (79 versus 85, threshold 5). -/
theorem compare_scores_emits_iff_witness :
    (0:Int) ≤ 5 ∧
      ((∃ ch ∈ compare_scores [(("performance"), 79)] [(("performance"), 85)] 5,
          ch.category = ("performance" : String)) ↔
        (∃ cur, (("performance" : String), cur) ∈ [(("performance" : String), (79:Int))] ∧
          ∃ p, getScore [(("performance"), 85)] ("performance") = some p ∧
            (5:Int) ≤ abs (cur - p))) :=
  ⟨by decide,
    compare_scores_emits_iff [(("performance"), 79)] [(("performance"), 85)] 5
      (by decide) ("performance")⟩

/-- Counterexample to C2 as stated: at threshold 0 the code emits a
Change with difference 0, labelled declined although the difference is
not negative. -/
theorem compare_scores_direction_counterexample :
    ∃ ch ∈ compare_scores [(("performance"), 50)] [(("performance"), 50)] 0,
      ch.diff = 0 ∧ ch.direction = ("declined" : String) ∧ ¬ch.diff < 0 := by
  decide

/-- Claim C2 (amended to strictly positive thresholds): every emitted
Change has a nonzero difference, is labelled improved iff the
difference is positive, and declined iff it is negative. -/
theorem compare_scores_direction_strict (current previous : List (String × Int))
    (t : Int) (ht : 1 ≤ t) (ch : Change)
    (hch : ch ∈ compare_scores current previous t) :
    ch.diff ≠ 0 ∧ (ch.direction = ("improved" : String) ↔ 0 < ch.diff) ∧
      (ch.direction = ("declined" : String) ↔ ch.diff < 0) := by
  rw [compare_scores, List.mem_filterMap] at hch
  obtain ⟨entry, hmem, hf⟩ := hch
  cases hgs : getScore previous entry.1 with
  | none => rw [hgs] at hf; simp at hf
  | some p =>
    rw [hgs] at hf
    dsimp only at hf
    by_cases hcond : t ≤ abs (entry.2 - p)
    · rw [if_pos hcond] at hf
      injection hf with hf
      have hne : entry.2 - p ≠ 0 := by
        intro h0
        rw [h0, abs_zero] at hcond
        omega
      subst hf
      refine ⟨hne, ?_, ?_⟩
      · dsimp only
        by_cases hpos : 0 < entry.2 - p
        · rw [if_pos hpos]
          simp [hpos]
        · rw [if_neg hpos]
          constructor
          · intro h
            exact absurd h (by decide)
          · intro h
            exact absurd h hpos
      · dsimp only
        by_cases hpos : 0 < entry.2 - p
        · rw [if_pos hpos]
          constructor
          · intro h
            exact absurd h (by decide)
          · intro h
            exact absurd h (by omega)
        · rw [if_neg hpos]
          have hneg : entry.2 - p < 0 := by omega
          simp [hneg]
    · rw [if_neg hcond] at hf
      simp at hf

/-- Witness for amended C2 at the spec scenario (79 versus 85,
threshold 5, a declined change of minus six). -/
theorem compare_scores_direction_strict_witness :
    ((1:Int) ≤ 5 ∧
      (⟨("performance"), 85, 79, -6, ("declined")⟩ : Change) ∈
        compare_scores [(("performance"), 79)] [(("performance"), 85)] 5) ∧
      ((⟨("performance"), 85, 79, -6, ("declined")⟩ : Change).diff ≠ 0 ∧
        ((⟨("performance"), 85, 79, -6, ("declined")⟩ : Change).direction =
            ("improved" : String) ↔
          0 < (⟨("performance"), 85, 79, -6, ("declined")⟩ : Change).diff) ∧
        ((⟨("performance"), 85, 79, -6, ("declined")⟩ : Change).direction =
            ("declined" : String) ↔
          (⟨("performance"), 85, 79, -6, ("declined")⟩ : Change).diff < 0)) :=
  ⟨⟨by decide, by decide⟩,
    compare_scores_direction_strict [(("performance"), 79)] [(("performance"), 85)] 5
      (by decide) ⟨("performance"), 85, 79, -6, ("declined")⟩ (by decide)⟩

/-- Counterexample to C3 as stated: at threshold 0 comparing a record
against itself emits a Change. -/
theorem compare_scores_self_counterexample :
    compare_scores [(("performance"), 50)] [(("performance"), 50)] 0 ≠ [] := by
  decide

/-- Claim C3 (amended to strictly positive thresholds): comparing a
Score Record (unique keys) against itself yields no Change. -/
theorem compare_scores_self_empty (a : List (String × Int)) (t : Int)
    (ht : 1 ≤ t) (hnd : (a.map Prod.fst).Nodup) :
    compare_scores a a t = [] := by
  rw [compare_scores, List.filterMap_eq_nil_iff]
  intro entry hmem
  have hgs : getScore a entry.1 = some entry.2 :=
    getScore_eq_of_mem_nodup a hnd entry.1 entry.2 (by rw [Prod.mk.eta]; exact hmem)
  simp only [hgs, sub_self, abs_zero]
  rw [if_neg (by omega)]

/-- Witness for amended C3 on a concrete two-category record. -/
theorem compare_scores_self_empty_witness :
    ((1:Int) ≤ 5 ∧
      (([(("performance"), 50), (("seo"), 90)] : List (String × Int)).map
          Prod.fst).Nodup) ∧
      compare_scores [(("performance"), 50), (("seo"), 90)]
        [(("performance"), 50), (("seo"), 90)] 5 = [] :=
  ⟨⟨by decide, by decide⟩,
    compare_scores_self_empty [(("performance"), 50), (("seo"), 90)] 5
      (by decide) (by decide)⟩

/-- A persisted run: timestamp plus one score record per URL (source
lines 351 to 354). -/
structure Run where
  date : String
  results : List (String × List (String × Int))
deriving DecidableEq, Repr

/-- Appending a run to the history list and truncating to the last 52
entries (source lines 351 to 358). -/
def appendRun (runs : List Run) (r : Run) : List Run :=
  if 52 < (runs ++ [r]).length then (runs ++ [r]).drop ((runs ++ [r]).length - 52)
  else runs ++ [r]

/-- Appending to a history within the bound is plain concatenation, so
folding appends over at most 52 runs reproduces them exactly. -/
theorem foldl_appendRun_of_le (rs : List Run) (h : rs.length ≤ 52) :
    List.foldl appendRun [] rs = rs := by
  induction rs using List.reverseRecOn with
  | nil => rfl
  | append_singleton l a ih =>
    rw [List.length_append] at h
    rw [List.foldl_append]
    simp only [List.foldl_cons, List.foldl_nil]
    rw [ih (by simp at h; omega)]
    rw [appendRun, if_neg]
    rw [List.length_append]
    simp at h ⊢
    omega

/-- Claim C4: after any append the history holds at most 52 runs;
folding 53 appends over an empty history keeps exactly the last 52 in
order (oldest evicted first), and the latest-run lookup returns the run
just appended. -/
theorem history_retention_fifo (runs : List Run) (r : Run) (rs : List Run)
    (h53 : rs.length = 53) :
    (appendRun runs r).length ≤ 52 ∧
      List.foldl appendRun [] rs = rs.drop 1 ∧
      (appendRun runs r).getLast? = some r := by
  refine ⟨?_, ?_, ?_⟩
  · rw [appendRun]
    split
    · rw [List.length_drop]
      omega
    · rename_i hle
      omega
  · have hne : rs ≠ [] := by
      intro h0
      rw [h0] at h53
      simp at h53
    have hsplit := List.dropLast_append_getLast hne
    have hlen : rs.dropLast.length = 52 := by
      rw [List.length_dropLast, h53]
    rw [← hsplit, List.foldl_append]
    simp only [List.foldl_cons, List.foldl_nil]
    rw [foldl_appendRun_of_le rs.dropLast (by omega)]
    have hlen2 : (rs.dropLast ++ [rs.getLast hne]).length = 53 := by
      rw [List.length_append, hlen]
      rfl
    rw [appendRun, if_pos (by rw [hlen2]; omega), hlen2]
  · rw [appendRun]
    split
    · rename_i hgt
      have hlen : (runs ++ [r]).length = runs.length + 1 := by
        rw [List.length_append]
        rfl
      rw [hlen] at hgt ⊢
      rw [List.drop_append_of_le_length (by omega)]
      exact List.getLast?_concat _
    · exact List.getLast?_concat _

/-- A distinguishable weekly run used to exercise the retention bound. -/
def runW (i : Nat) : Run := ⟨("week"), [(("u1"), [(("performance"), (i : Int))])]⟩

/-- Fifty-three distinct runs, one more than the retention window. -/
def runsW : List Run := (List.range 53).map runW

/-- Witness for C4 on 53 concrete appends into an empty history. -/
theorem history_retention_fifo_witness :
    runsW.length = 53 ∧
      ((appendRun [] (runW 0)).length ≤ 52 ∧
        List.foldl appendRun [] runsW = runsW.drop 1 ∧
        (appendRun [] (runW 0)).getLast? = some (runW 0)) :=
  ⟨by decide, history_retention_fifo [] (runW 0) runsW (by decide)⟩

/-- Python truthiness of the fetched scores at source line 331: both a
failed fetch (None) and an empty scores dict are falsy. -/
def truthyScores (scoresOpt : Option (List (String × Int))) : Bool :=
  match scoresOpt with
  | none => false
  | some s => !s.isEmpty

/-- One entry of current_results (source lines 338 to 343). -/
structure UrlResult where
  url : String
  scores : List (String × Int)
  previous : List (String × Int)
  changes : List Change
deriving DecidableEq, Repr

/-- Dict built by repeated assignment (source lines 320 to 322): a later
entry for the same key overrides an earlier one. -/
def dictLookup {α : Type} (entries : List (String × α)) (k : String) : Option α :=
  match entries with
  | [] => none
  | entry :: rest =>
    match dictLookup rest k with
    | some v => some v
    | none => if entry.1 = k then some entry.2 else none

/-- previous_scores, keyed by URL from the latest run's results (source
lines 318 to 322). -/
def previousScoresOf (history : List Run) : List (String × List (String × Int)) :=
  match history.getLast? with
  | none => []
  | some run => run.results

/-- The per-URL audit loop of main (source lines 328 to 343): fetch,
skip falsy score dicts, compare against the previous run, collect. -/
def batchResults (urls : List String)
    (fetch : String → Option (List (String × Int)))
    (history : List Run) (threshold : Int) : List UrlResult :=
  urls.filterMap (fun u =>
    match fetch u with
    | none => none
    | some s =>
      if s.isEmpty then none
      else
        some ⟨u, s, (dictLookup (previousScoresOf history) u).getD [],
          compare_scores s ((dictLookup (previousScoresOf history) u).getD [])
            threshold⟩)

/-- The has_changes flag (source lines 326 and 335 to 336). -/
def hasChangesOf (urls : List String)
    (fetch : String → Option (List (String × Int)))
    (history : List Run) (threshold : Int) : Bool :=
  (batchResults urls fetch history threshold).any (fun r => !r.changes.isEmpty)

/-- The run built for persistence (source lines 351 to 354): only
successfully fetched URLs contribute a score record. -/
def newRun (urls : List String) (fetch : String → Option (List (String × Int)))
    (history : List Run) (threshold : Int) (runDate : String) : Run :=
  ⟨runDate, (batchResults urls fetch history threshold).map
    (fun r => (r.url, r.scores))⟩

/-- One full batch of main (source lines 314 to 358): the collected
results, the has_changes flag, and the history after append and
truncation. -/
def runBatch (urls : List String) (fetch : String → Option (List (String × Int)))
    (history : List Run) (threshold : Int) (runDate : String) :
    List UrlResult × Bool × List Run :=
  (batchResults urls fetch history threshold,
    hasChangesOf urls fetch history threshold,
    appendRun history (newRun urls fetch history threshold runDate))

/-- The URLs that survive the batch are exactly the configured URLs with
truthy fetch results, in order. -/
theorem batch_urls_eq (urls : List String)
    (fetch : String → Option (List (String × Int)))
    (history : List Run) (t : Int) :
    (batchResults urls fetch history t).map (fun r => r.url) =
      urls.filter (fun v => truthyScores (fetch v)) := by
  induction urls with
  | nil => rfl
  | cons hd tl ih =>
    rw [batchResults] at ih ⊢
    rw [List.filterMap_cons, List.filter_cons]
    cases hf : fetch hd with
    | none =>
      simp only [truthyScores]
      rw [if_neg (by simp)]
      exact ih
    | some s =>
      simp only [truthyScores]
      by_cases hs : s.isEmpty
      · rw [if_pos hs]
        rw [if_neg (by simp [hs])]
        exact ih
      · rw [if_neg hs]
        rw [if_pos (by simp [hs])]
        rw [List.map_cons, ih]
        rfl

/-- Claim C5: a URL whose fetch fails contributes no batch result entry
and no score record to the appended run, and the surviving entries are
exactly the URLs with successful (truthy) fetches, in order. -/
theorem failed_fetch_skipped (urls : List String)
    (fetch : String → Option (List (String × Int))) (history : List Run)
    (t : Int) (d : String) (u : String) (hu : fetch u = none) :
    (∀ r ∈ batchResults urls fetch history t, r.url ≠ u) ∧
      (∀ e ∈ (newRun urls fetch history t d).results, e.1 ≠ u) ∧
      (batchResults urls fetch history t).map (fun r => r.url) =
        urls.filter (fun v => truthyScores (fetch v)) := by
  have h3 := batch_urls_eq urls fetch history t
  have h1 : ∀ r ∈ batchResults urls fetch history t, r.url ≠ u := by
    intro r hr hru
    have hm : r.url ∈ (batchResults urls fetch history t).map (fun r => r.url) :=
      List.mem_map_of_mem _ hr
    rw [h3, hru] at hm
    have := List.of_mem_filter hm
    rw [hu] at this
    simp [truthyScores] at this
  refine ⟨h1, ?_, h3⟩
  intro e he
  rw [newRun] at he
  simp only [List.mem_map] at he
  obtain ⟨r, hr, rfl⟩ := he
  exact h1 r hr

/-- A three-URL batch whose middle URL fails to fetch. -/
def fetchW (v : String) : Option (List (String × Int)) :=
  if v = ("u2") then none else some [(("performance"), 80)]

/-- Witness for C5: of three URLs with one failed fetch, exactly the
two successful ones survive into the batch and the appended run. -/
theorem failed_fetch_skipped_witness :
    fetchW ("u2") = none ∧
      (batchResults [("u1"), ("u2"), ("u3")] fetchW [] 5).length = 2 ∧
      ((∀ r ∈ batchResults [("u1"), ("u2"), ("u3")] fetchW [] 5,
          r.url ≠ ("u2" : String)) ∧
        (∀ e ∈ (newRun [("u1"), ("u2"), ("u3")] fetchW [] 5 ("2026-01-05")).results,
          e.1 ≠ ("u2" : String)) ∧
        (batchResults [("u1"), ("u2"), ("u3")] fetchW [] 5).map (fun r => r.url) =
          ([("u1"), ("u2"), ("u3")] : List String).filter
            (fun v => truthyScores (fetchW v))) :=
  ⟨by decide, by decide,
    failed_fetch_skipped [("u1"), ("u2"), ("u3")] fetchW [] 5 ("2026-01-05")
      ("u2") (by decide)⟩

/-- Claim C10: a fetch that succeeds with an empty score record is
treated exactly like a failed fetch, because the aggregator tests the
dict for truthiness: the whole batch outcome is unchanged if that URL's
fetch is replaced by a failure, and the URL appears in no result. -/
theorem empty_scores_like_failure (urls : List String)
    (fetch : String → Option (List (String × Int))) (history : List Run)
    (t : Int) (d : String) (u : String) (hu : fetch u = some []) :
    runBatch urls fetch history t d =
        runBatch urls (fun v => if v = u then none else fetch v) history t d ∧
      ∀ r ∈ batchResults urls fetch history t, r.url ≠ u := by
  have hbatch : batchResults urls fetch history t =
      batchResults urls (fun v => if v = u then none else fetch v) history t := by
    rw [batchResults, batchResults]
    apply List.filterMap_congr
    intro v hv
    by_cases hvu : v = u
    · subst hvu
      rw [hu]
      simp
    · simp only [if_neg hvu]
  constructor
  · rw [runBatch, runBatch, hasChangesOf, hasChangesOf, newRun, newRun, hbatch]
  · intro r hr hru
    have hm : r.url ∈ (batchResults urls fetch history t).map (fun r => r.url) :=
      List.mem_map_of_mem _ hr
    rw [batch_urls_eq, hru] at hm
    have := List.of_mem_filter hm
    rw [hu] at this
    simp [truthyScores] at this

/-- A fetch whose response for the middle URL parses but yields no
category score. -/
def fetchEmptyW (v : String) : Option (List (String × Int)) :=
  if v = ("u2") then some [] else some [(("performance"), 80)]

/-- Witness for C10 on a three-URL batch whose middle URL fetches an
empty score record. -/
theorem empty_scores_like_failure_witness :
    fetchEmptyW ("u2") = some [] ∧
      (batchResults [("u1"), ("u2"), ("u3")] fetchEmptyW [] 5).length = 2 ∧
      (runBatch [("u1"), ("u2"), ("u3")] fetchEmptyW [] 5 ("2026-01-05") =
          runBatch [("u1"), ("u2"), ("u3")]
            (fun v => if v = ("u2") then none else fetchEmptyW v) [] 5
            ("2026-01-05") ∧
        ∀ r ∈ batchResults [("u1"), ("u2"), ("u3")] fetchEmptyW [] 5,
          r.url ≠ ("u2" : String)) :=
  ⟨by decide, by decide,
    empty_scores_like_failure [("u1"), ("u2"), ("u3")] fetchEmptyW [] 5
      ("2026-01-05") ("u2") (by decide)⟩

/-- Counterexample to C6 as stated: a batch in which every fetch fails
still changes the persisted history, because main unconditionally
appends a run (with an empty results list). -/
theorem all_failed_counterexample :
    (runBatch [("u1")] (fun _ => none) [] 5 ("2026-01-05")).2.2 ≠ [] := by
  decide

/-- Claim C6 (amended): a batch with zero successful fetches completes
(total function, nothing raises) with an empty results list, and its
append stage appends a run with an empty results list rather than
leaving history unchanged. -/
theorem all_failed_appends_empty_run (urls : List String)
    (fetch : String → Option (List (String × Int))) (history : List Run)
    (t : Int) (d : String)
    (h : ∀ v ∈ urls, truthyScores (fetch v) = false) :
    (runBatch urls fetch history t d).1 = [] ∧
      (runBatch urls fetch history t d).2.2 = appendRun history ⟨d, []⟩ := by
  have hempty : batchResults urls fetch history t = [] := by
    rw [batchResults, List.filterMap_eq_nil_iff]
    intro v hv
    have hfv := h v hv
    cases hf : fetch v with
    | none => rfl
    | some s =>
      rw [hf, truthyScores] at hfv
      simp at hfv
      simp [hfv]
  constructor
  · rw [runBatch]
    exact hempty
  · rw [runBatch]
    dsimp only
    rw [newRun, hempty, List.map_nil]

/-- Witness for amended C6: one URL whose fetch fails, empty history. -/
theorem all_failed_appends_empty_run_witness :
    (∀ v ∈ ([("u1")] : List String), truthyScores ((fun _ => none) v) = false) ∧
      ((runBatch [("u1")] (fun _ => none) [] 5 ("2026-01-05")).1 = [] ∧
        (runBatch [("u1")] (fun _ => none) [] 5 ("2026-01-05")).2.2 =
          appendRun [] ⟨("2026-01-05"), []⟩) :=
  ⟨by decide,
    all_failed_appends_empty_run [("u1")] (fun _ => none) [] 5 ("2026-01-05")
      (by decide)⟩

/-- The externally observable effects of one invocation of main after
aggregation, in program order: the history write of save_history
(source line 360), then the email attempt (source lines 364 to 373),
which happens only when there are results; deliveryOk abstracts the
SMTP outcome inside send_email, which catches its own exceptions and
only returns a boolean (source lines 277 to 296). -/
inductive Event where
  | persist (runs : List Run)
  | notify (hasChanges : Bool) (deliveryOk : Bool)
deriving DecidableEq, Repr

/-- The effect trace of main (source lines 350 to 373). -/
def mainEvents (urls : List String)
    (fetch : String → Option (List (String × Int))) (history : List Run)
    (threshold : Int) (runDate : String) (deliveryOk : Bool) : List Event :=
  Event.persist (appendRun history (newRun urls fetch history threshold runDate)) ::
    (if (batchResults urls fetch history threshold).isEmpty then []
     else [Event.notify (hasChangesOf urls fetch history threshold) deliveryOk])

/-- Claim C8: when at least one fetch succeeds, the effect trace is the
history write followed by the notification attempt, and the persisted
history is the same expression whether delivery succeeds or fails. -/
theorem persist_precedes_notify (urls : List String)
    (fetch : String → Option (List (String × Int))) (history : List Run)
    (t : Int) (d : String) (deliveryOk : Bool)
    (h : ∃ v ∈ urls, truthyScores (fetch v) = true) :
    mainEvents urls fetch history t d deliveryOk =
      [Event.persist (appendRun history (newRun urls fetch history t d)),
        Event.notify (hasChangesOf urls fetch history t) deliveryOk] := by
  obtain ⟨v, hv, htr⟩ := h
  have hne : batchResults urls fetch history t ≠ [] := by
    cases hf : fetch v with
    | none =>
      rw [hf, truthyScores] at htr
      simp at htr
    | some s =>
      intro h0
      rw [batchResults, List.filterMap_eq_nil_iff] at h0
      have hv0 := h0 v hv
      rw [hf] at hv0
      rw [hf, truthyScores] at htr
      simp at htr
      simp [htr] at hv0
  have hb : (batchResults urls fetch history t).isEmpty = false := by
    rw [List.isEmpty_eq_false]
    exact hne
  rw [mainEvents, hb]
  rfl

/-- A single URL whose fetch succeeds with one category score. -/
def fetchOkW (v : String) : Option (List (String × Int)) :=
  if v = ("u1") then some [(("performance"), 80)] else none

/-- Witness for C8 on a one-URL batch with a successful fetch, for both
delivery outcomes. -/
theorem persist_precedes_notify_witness :
    (∃ v ∈ ([("u1")] : List String), truthyScores (fetchOkW v) = true) ∧
      mainEvents [("u1")] fetchOkW [] 5 ("2026-01-05") false =
        [Event.persist (appendRun [] (newRun [("u1")] fetchOkW [] 5 ("2026-01-05"))),
          Event.notify (hasChangesOf [("u1")] fetchOkW [] 5) false] :=
  ⟨by decide,
    persist_precedes_notify [("u1")] fetchOkW [] 5 ("2026-01-05") false
      (by decide)⟩

/-- The states the history.json backing store can be in when main
starts: absent, present but not valid JSON, or well formed. -/
inductive StoreContent where
  | corrupt
  | wellFormed (runs : List Run)
deriving DecidableEq, Repr

/-- load_history (source lines 54 to 61): a missing file yields the
empty history; an existing file is handed to json.load, whose parse
failure on corrupt contents propagates as an exception. -/
def load_history (store : Option StoreContent) : Except String (List Run) :=
  match store with
  | none => Except.ok []
  | some StoreContent.corrupt => Except.error ("JSONDecodeError")
  | some (StoreContent.wellFormed rs) => Except.ok rs

/-- Counterexample to C7 as stated: a corrupt store does not yield the
empty history, it raises the parse error. -/
theorem load_history_corrupt_counterexample :
    load_history (some StoreContent.corrupt) = Except.error ("JSONDecodeError") :=
  rfl

/-- Claim C7 (amended): a missing store loads as the empty history and a
well-formed store loads as its runs, but a corrupt store propagates the
parse error instead of being treated as empty. -/
theorem load_history_missing_empty :
    load_history none = Except.ok [] ∧
      (∀ rs : List Run, load_history (some (StoreContent.wellFormed rs)) =
        Except.ok rs) ∧
      ∃ e, load_history (some StoreContent.corrupt) = Except.error e :=
  ⟨rfl, fun _ => rfl, ⟨("JSONDecodeError"), rfl⟩⟩

/-- Python str.title over the ASCII labels: uppercase a letter that
starts an alphabetic run, lowercase the other letters. -/
def titleChars (prevAlpha : Bool) (cs : List Char) : List Char :=
  match cs with
  | [] => []
  | c :: rest =>
    (if c.isAlpha then (if prevAlpha then c.toLower else c.toUpper) else c) ::
      titleChars c.isAlpha rest

/-- category.replace("-", " ").title(), the label formatting shared by
both renderers (source lines 217 and 264). -/
def displayLabel (c : String) : String :=
  String.mk (titleChars false ((c.replace ("-") (" ")).toList))

/-- The change column datum computed by both renderers (source lines
203 to 213 and 251 to 262): a signed delta with a direction marker, a
no-change marker, or a first-run marker when there is no baseline. -/
inductive ChangeCell where
  | improvedBy (d : Int)
  | declinedBy (d : Int)
  | unchanged
  | firstRun
deriving DecidableEq, Repr

def changeCellOf (score : Int) (prev : Option Int) : ChangeCell :=
  match prev with
  | none => ChangeCell.firstRun
  | some p =>
    if 0 < score - p then ChangeCell.improvedBy (score - p)
    else if score - p < 0 then ChangeCell.declinedBy (score - p)
    else ChangeCell.unchanged

/-- The badge tier class of the HTML renderer (source lines 196 to
201): at least 90 good, at least 50 ok, otherwise bad; boundaries
inclusive. -/
def badgeOf (score : Int) : String :=
  if 90 ≤ score then ("score-good")
  else if 50 ≤ score then ("score-ok")
  else ("score-bad")

/-- One table row of the HTML report (source lines 192 to 222). -/
structure HtmlRow where
  label : String
  score : Int
  badge : String
  prevScore : Option Int
  cell : ChangeCell
deriving DecidableEq, Repr

/-- One line of the plain-text report (source lines 250 to 264): same
data without the badge class. -/
structure TextRow where
  label : String
  score : Int
  prevScore : Option Int
  cell : ChangeCell
deriving DecidableEq, Repr

/-- One per-URL section of the HTML report (source lines 171 to 224). -/
structure HtmlSection where
  url : String
  alertBanner : Bool
  rows : List HtmlRow
deriving DecidableEq, Repr

/-- One per-URL section of the plain-text report (source lines 239 to
266). -/
structure TextSection where
  url : String
  alertBanner : Bool
  rows : List TextRow
deriving DecidableEq, Repr

/-- The data interpolated by format_email_html (source lines 141 to
232); the constant markup around it carries no information. -/
structure HtmlDoc where
  runDate : String
  sections : List HtmlSection
deriving DecidableEq, Repr

/-- The data interpolated by format_email_text (source lines 235 to
268). -/
structure TextDoc where
  runDate : String
  sections : List TextSection
deriving DecidableEq, Repr

/-- format_email_html (source lines 141 to 232) as the structured data
it renders. -/
def format_email_html (results : List UrlResult) (run_date : String) : HtmlDoc :=
  ⟨run_date, results.map (fun r =>
    ⟨r.url, !r.changes.isEmpty,
      r.scores.map (fun entry =>
        ⟨displayLabel entry.1, entry.2, badgeOf entry.2,
          getScore r.previous entry.1,
          changeCellOf entry.2 (getScore r.previous entry.1)⟩)⟩)⟩

/-- format_email_text (source lines 235 to 268) as the structured data
it renders. -/
def format_email_text (results : List UrlResult) (run_date : String) : TextDoc :=
  ⟨run_date, results.map (fun r =>
    ⟨r.url, !r.changes.isEmpty,
      r.scores.map (fun entry =>
        ⟨displayLabel entry.1, entry.2, getScore r.previous entry.1,
          changeCellOf entry.2 (getScore r.previous entry.1)⟩)⟩)⟩

/-- Forgetting the badge of an HTML row leaves a plain-text row. -/
def dropBadge (row : HtmlRow) : TextRow :=
  ⟨row.label, row.score, row.prevScore, row.cell⟩

/-- Recomputing the badge from the displayed score recovers the HTML
row from a plain-text row. -/
def addBadge (row : TextRow) : HtmlRow :=
  ⟨row.label, row.score, badgeOf row.score, row.prevScore, row.cell⟩

def htmlToText (doc : HtmlDoc) : TextDoc :=
  ⟨doc.runDate, doc.sections.map (fun s =>
    ⟨s.url, s.alertBanner, s.rows.map dropBadge⟩)⟩

def textToHtml (doc : TextDoc) : HtmlDoc :=
  ⟨doc.runDate, doc.sections.map (fun s =>
    ⟨s.url, s.alertBanner, s.rows.map addBadge⟩)⟩

/-- Claim C9: both reports are rendered from the same aggregated data
and are mutually derivable, so every fact carried by one (per-category
current score, previous score or first-run marker, change indicator,
the qualitative tier determined by the displayed score with inclusive
boundaries 90 and 50, and the per-URL changes banner) is recoverable
from the other in equivalent form. -/
theorem report_parity (results : List UrlResult) (d : String) :
    htmlToText (format_email_html results d) = format_email_text results d ∧
      textToHtml (format_email_text results d) = format_email_html results d := by
  constructor
  · rw [htmlToText, format_email_html, format_email_text]
    simp only [List.map_map]
    congr 1
    apply List.map_congr_left
    intro r hr
    dsimp only [Function.comp]
    simp only [List.map_map]
    rfl
  · rw [textToHtml, format_email_html, format_email_text]
    simp only [List.map_map]
    congr 1
    apply List.map_congr_left
    intro r hr
    dsimp only [Function.comp]
    simp only [List.map_map]
    rfl
